import Mathlib

/-!
Shallow embedding of the Discord strategy-guide bot (`index.js`).

The only bot-authored logic is the `messageCreate` handler: it ignores
bot-authored messages, trims the content, compares it against three literal
commands, and otherwise matches the regex `/^!(\d+)(?:\s*(en|cn|jp))?$/i`,
looks the captured (floor, language) pair up in a static table and, on a hit,
sends a single embed whose title is prefixed with a `month/day` date obtained
from the current clock by `setDate(getDate() + (5 - getDay()))`.

Dates are modelled as ECMAScript local calendar dates, represented by their
day number relative to the epoch 1970-01-01 (an integer).  `getDay`,
`getMonth`, `getDate` and `setDate` are modelled on that representation via
the proleptic Gregorian calendar used by ECMAScript `Date`.  The handler
itself is a pure function from (author-is-bot flag, message content, clock)
to the list of outbound sends; each `return msg.channel.send({embeds:[e]})`
in the source becomes a singleton list.
-/

/-- The set of characters matched by JavaScript's `\s` (and removed by
`String.prototype.trim`): tab, LF, VT, FF, CR, space, NBSP, and the Unicode
space separators incl. line/paragraph separator and BOM. -/
def isJsSpace (c : Char) : Bool :=
  let n := c.toNat
  n = 0x20 || n = 0x9 || n = 0xa || n = 0xb || n = 0xc || n = 0xd ||
  n = 0xa0 || n = 0x1680 || (0x2000 ≤ n && n ≤ 0x200a) ||
  n = 0x2028 || n = 0x2029 || n = 0x202f || n = 0x205f || n = 0x3000 || n = 0xfeff

/-- The character class `\d` of a JavaScript regex without the `u` flag:
exactly the ASCII digits `0`-`9`. -/
def isDig (c : Char) : Bool :=
  0x30 ≤ c.toNat && c.toNat ≤ 0x39

/-- JavaScript `String.prototype.trim`: strip `isJsSpace` characters from
both ends (`msg.content.trim()` in the source). -/
def jsTrim (s : String) : String :=
  String.mk (((s.data.dropWhile isJsSpace).reverse.dropWhile isJsSpace).reverse)

/-- The observable part of a sent embed: `setTitle`, `setColor`,
`setDescription` are the only fields the handler populates. -/
structure Embed where
  title : String
  color : Nat
  description : String
deriving DecidableEq, Repr

/-- One entry of the static `strategies` table: `titleSuffix`, `goal`,
`link`. -/
structure StratCfg where
  titleSuffix : String
  goal : Nat
  link : String
deriving DecidableEq, Repr

/-- `strategies['57'].en` from the source. -/
def strat57en : StratCfg :=
  { titleSuffix := "Abyss Strategy for 57"
    goal := 57
    link := "https://discord.com/channels/1082595320074092574/1363695806841880656/1381677003136176293" }

/-- `strategies['57'].cn` from the source. -/
def strat57cn : StratCfg :=
  { titleSuffix := "57層深淵攻略"
    goal := 57
    link := "https://discord.com/channels/1082595320074092574/1363734401791430868/1381672941288296549" }

/-- `strategies['57'].jp` from the source. -/
def strat57jp : StratCfg :=
  { titleSuffix := "57層の深淵戦略"
    goal := 57
    link := "https://discord.com/channels/1082595320074092574/1381483438640730242/1382585667321597963" }

/-- `strategies['58'].en` from the source. -/
def strat58en : StratCfg :=
  { titleSuffix := "Abyss Strategy for 58"
    goal := 58
    link := "https://discord.com/channels/1082595320074092574/1363695806841880656/1381491555122282576" }

/-- `strategies['58'].cn` from the source. -/
def strat58cn : StratCfg :=
  { titleSuffix := "58層深淵攻略"
    goal := 58
    link := "https://discord.com/channels/1082595320074092574/1363734401791430868/1381483774038114466" }

/-- `strategies['58'].jp` from the source. -/
def strat58jp : StratCfg :=
  { titleSuffix := "58層の深淵戦略"
    goal := 58
    link := "https://discord.com/channels/1082595320074092574/1381483438640730242/1382585667321597963" }

/-- The static table `strategies[key]?.[lang]`: property lookup by the exact
captured digit string and the lowercased language code. -/
def strategies (key lang : String) : Option StratCfg :=
  if key = "57" then
    if lang = "en" then some strat57en
    else if lang = "cn" then some strat57cn
    else if lang = "jp" then some strat57jp
    else none
  else if key = "58" then
    if lang = "en" then some strat58en
    else if lang = "cn" then some strat58cn
    else if lang = "jp" then some strat58jp
    else none
  else none

/-- The alternation `(en|cn|jp)` under the `/i` flag followed by the
lowercasing `m[2]?.toLowerCase()`: the whole remaining character list must be
exactly one of the three codes, each letter in either case, and the result is
the lowercased code. -/
def lowerLang (cs : List Char) : Option String :=
  match cs with
  | [c1, c2] =>
    if (c1 == 'e' || c1 == 'E') && (c2 == 'n' || c2 == 'N') then some "en"
    else if (c1 == 'c' || c1 == 'C') && (c2 == 'n' || c2 == 'N') then some "cn"
    else if (c1 == 'j' || c1 == 'J') && (c2 == 'p' || c2 == 'P') then some "jp"
    else none
  | _ => none

/-- The anchored regex match `raw.match(/^!(\d+)(?:\s*(en|cn|jp))?$/i)`
together with the extraction `key = m[1]` and
`lang = m[2]?.toLowerCase() || 'en'`: a leading `!`, a maximal nonempty run
of digits, then either nothing (language defaults to `en`) or optional
whitespace followed by exactly a language code. -/
def matchFloor (raw : String) : Option (String × String) :=
  match raw.data with
  | [] => none
  | c :: rest =>
    if c = '!' then
      let digits := rest.takeWhile isDig
      let tail := rest.dropWhile isDig
      if digits.isEmpty then none
      else if tail.isEmpty then some (String.mk digits, "en")
      else
        match lowerLang (tail.dropWhile isJsSpace) with
        | some l => some (String.mk digits, l)
        | none => none
    else none

/-- ECMAScript `Date.prototype.getDay` on the day number `z` (days since
1970-01-01, which was a Thursday): `0` = Sunday … `6` = Saturday. -/
def jsGetDay (z : Int) : Int :=
  (z + 4) % 7

/-- Proleptic Gregorian calendar conversion from a day number (days since
1970-01-01) to `(year, month 1-12, day-of-month 1-31)`, the calendar
underlying ECMAScript `Date`.  Divisions are Euclidean, hence floor
divisions for the positive constant divisors used here. -/
def civilFromDays (z : Int) : Int × Int × Int :=
  let z2 := z + 719468
  let era := z2 / 146097
  let doe := z2 - era * 146097
  let yoe := (doe - doe / 1460 + doe / 36524 - doe / 146096) / 365
  let y := yoe + era * 400
  let doy := doe - (365 * yoe + yoe / 4 - yoe / 100)
  let mp := (5 * doy + 2) / 153
  let dd := doy - (153 * mp + 2) / 5 + 1
  let m := if mp < 10 then mp + 3 else mp - 9
  (if m ≤ 2 then y + 1 else y, m, dd)

/-- ECMAScript `Date.prototype.getMonth`: zero-based month of the day
number. -/
def jsGetMonth (z : Int) : Int :=
  (civilFromDays z).2.1 - 1

/-- ECMAScript `Date.prototype.getDate`: day of month (1-31) of the day
number. -/
def jsGetDate (z : Int) : Int :=
  (civilFromDays z).2.2

/-- ECMAScript `Date.prototype.setDate`: replace the day of month by `x`,
with out-of-range values normalized into adjacent months.  On the day-number
representation this is moving by `x - getDate z` days. -/
def jsSetDate (z : Int) (x : Int) : Int :=
  z + (x - jsGetDate z)

/-- Format a day number as the `month/day` string
`` `${d.getMonth()+1}/${d.getDate()}` `` used by the source. -/
def monthDayStr (z : Int) : String :=
  toString (jsGetMonth z + 1) ++ "/" ++ toString (jsGetDate z)

/-- The source's date computation: `diff = 5 - now.getDay()`,
`fri = copy of now`, `fri.setDate(now.getDate() + diff)`, then the
`month/day` string of `fri`. -/
def fridayStr (now : Int) : String :=
  let diff := 5 - jsGetDay now
  let fri := jsSetDate now (jsGetDate now + diff)
  monthDayStr fri

/-- The color constant of the floor embed:
`lang === 'cn' ? 0xFF4500 : lang === 'jp' ? 0xFFD700 : 0x1ABC9C`. -/
def floorColor (lang : String) : Nat :=
  if lang = "cn" then 0xFF4500 else if lang = "jp" then 0xFFD700 else 0x1ABC9C

/-- The language-dependent description template of the floor embed. -/
def floorDescription (lang : String) (cfg : StratCfg) : String :=
  if lang = "cn" then
    "**目標：**" ++ toString cfg.goal ++ "層\n\n**攻略：**[點這裡](" ++ cfg.link ++ ")"
  else if lang = "jp" then
    "**目標：**" ++ toString cfg.goal ++ "層\n\n**戦略：**[こちら](" ++ cfg.link ++ ")"
  else
    "**Goal:** " ++ toString cfg.goal ++ "\n\n**Guide:** [Click here](" ++ cfg.link ++ ")"

/-- The embed built in the floor-pattern branch. -/
def floorEmbed (lang : String) (cfg : StratCfg) (now : Int) : Embed :=
  { title := fridayStr now ++ " " ++ cfg.titleSuffix
    color := floorColor lang
    description := floorDescription lang cfg }

/-- The static embed sent for `!strategy`. -/
def strategyEmbedEn : Embed :=
  { title := "Common abyss strategy"
    color := 0x1ABC9C
    description := String.intercalate "\n"
      [ "**Preparation before abyss start:** [Click here](https://discord.com/channels/1082595320074092574/1363695806841880656/1363733485696716903)"
      , ""
      , "**Tips of abyss:**"
      , "- Avoid shield [Click here](https://discord.com/channels/1082595320074092574/1363695806841880656/1381455399336808489)"
      , "- Charge multiple Ninjasu [Click here](https://discord.com/channels/1082595320074092574/1363695806841880656/1373203013031952445)"
      , "- Sacrifice [Click here](https://discord.com/channels/1082595320074092574/1363695806841880656/1363733485696716903)"
      , ""
      , "**What team captains should do:** [Click here](https://discord.com/channels/1082595320074092574/1363695806841880656/1382113056552779887)" ] }

/-- The static embed sent for `!攻略`. -/
def strategyEmbedCn : Embed :=
  { title := "通用深淵攻略"
    color := 0x1ABC9C
    description := String.intercalate "\n"
      [ "**深淵前的準備：** [點這裡](https://discord.com/channels/1082595320074092574/1363734401791430868/1363734640556249188)"
      , ""
      , "**深淵的出傷技巧：**"
      , "- 躲減傷盾 [點這裡](https://discord.com/channels/1082595320074092574/1363734401791430868/1381465507944861697)"
      , "- 單角二大 [點這裡](https://discord.com/channels/1082595320074092574/1363734401791430868/1373210571432005684)"
      , "- 獻祭策略 [點這裡](https://discord.com/channels/1082595320074092574/1363734401791430868/1363734942915367044)"
      , ""
      , "**特殊王的打法：**"
      , "- 暗之身 [點這裡](https://discord.com/channels/1082595320074092574/1363734401791430868/1381474295032844500)"
      , ""
      , "**隊長應該做的事情：** [點這裡](https://discord.com/channels/1082595320074092574/1363734401791430868/1370435360697352353)" ] }

/-- The static embed sent for `!戦略`. -/
def strategyEmbedJp : Embed :=
  { title := "共通深淵戦略"
    color := 0x1ABC9C
    description := String.intercalate "\n"
      [ "**深淵開始前の準備：** [こちら](https://discord.com/channels/1082595320074092574/1381483438640730242/1382550116833165412)"
      , ""
      , "**深淵のヒント：**"
      , "- シールドを避ける [こちら](https://discord.com/channels/1082595320074092574/1381483438640730242/1382577816398204978)"
      , "- 複数回数の忍術 [こちら](https://discord.com/channels/1082595320074092574/1381483438640730242/1382566525382168646)"
      , "- 深淵犠牲 [こちら](https://discord.com/channels/1082595320074092574/1381483438640730242/1382557150987030548)"
      , ""
      , "**キャプテンがやるべきこと：** [こちら](https://discord.com/channels/1082595320074092574/1381483438640730242/1382588080594227220)" ] }

/-- The handler body after `msg.content.trim()`: the cascade of literal
comparisons followed by the regex branch.  Each `return send` of the source
becomes a singleton list; falling through the end returns no send. -/
def handleRaw (raw : String) (now : Int) : List Embed :=
  if raw = "!strategy" then [strategyEmbedEn]
  else if raw = "!攻略" then [strategyEmbedCn]
  else if raw = "!戦略" then [strategyEmbedJp]
  else
    match matchFloor raw with
    | some (key, lang) =>
      match strategies key lang with
      | some cfg => [floorEmbed lang cfg now]
      | none => []
    | none => []

/-- The full `messageCreate` handler: bot-authored messages are dropped
(`if (msg.author.bot) return`), otherwise the trimmed content is
dispatched. -/
def handleMessage (authorBot : Bool) (content : String) (now : Int) : List Embed :=
  if authorBot then []
  else handleRaw (jsTrim content) now

/-- Spec-side comparator for the date claim: the upcoming Friday of day `z`
per the spec's words, i.e. the unique day with weekday Friday in the window
`z, z+1, …, z+6` (so `z` itself when `z` is a Friday). -/
def upcomingFridaySpec (z : Int) : Int :=
  z + (5 - jsGetDay z) % 7

/-- Boolean test that `suf` is a suffix of `s`. -/
def strEndsWith (suf s : String) : Bool :=
  suf.data.isSuffixOf s.data

/-- Boolean test that `needle` occurs as a contiguous substring of `hay`. -/
def substr (needle hay : String) : Bool :=
  hay.data.tails.any (fun t => needle.data.isPrefixOf t)

/-- The branch of the dispatch cascade a trimmed message selects: one of the
three literal commands, the floor pattern with its captured key and language,
or no match. -/
inductive Branch where
  | litEn : Branch
  | litCn : Branch
  | litJp : Branch
  | floor : String → String → Branch
  | noMatch : Branch
deriving DecidableEq, Repr

/-- Classify a trimmed message by the branch of `handleRaw` it selects. -/
def selectedBranch (raw : String) : Branch :=
  if raw = "!strategy" then Branch.litEn
  else if raw = "!攻略" then Branch.litCn
  else if raw = "!戦略" then Branch.litJp
  else
    match matchFloor raw with
    | some (key, lang) => Branch.floor key lang
    | none => Branch.noMatch

/-- The output of each branch: the literal branches send their fixed embed,
the floor branch sends the table-driven embed, no match sends nothing. -/
def interpBranch : Branch → Int → List Embed
  | Branch.litEn, _ => [strategyEmbedEn]
  | Branch.litCn, _ => [strategyEmbedCn]
  | Branch.litJp, _ => [strategyEmbedJp]
  | Branch.floor key lang, now =>
    match strategies key lang with
    | some cfg => [floorEmbed lang cfg now]
    | none => []
  | Branch.noMatch, _ => []

/-! Helper lemmas about characters, trimming and the regex match. -/

/-- A JavaScript whitespace character is never a digit. -/
lemma isDig_eq_false_of_isJsSpace {c : Char} (h : isJsSpace c = true) :
    isDig c = false := by
  unfold isJsSpace at h
  unfold isDig
  simp only [Bool.or_eq_true, Bool.and_eq_true, decide_eq_true_eq] at h
  simp only [Bool.and_eq_false_iff, decide_eq_false_iff_not]
  omega

/-- Dropping while a predicate fails at the head is the identity. -/
lemma dropWhile_of_head_neg {α : Type} {p : α → Bool} (l : List α)
    (h : ∀ c, l.head? = some c → p c = false) : l.dropWhile p = l := by
  cases l with
  | nil => rfl
  | cons x xs => simp [List.dropWhile_cons, h x rfl]

/-- Taking while a predicate fails at the head gives the empty list. -/
lemma takeWhile_of_head_neg {α : Type} {p : α → Bool} (l : List α)
    (h : ∀ c, l.head? = some c → p c = false) : l.takeWhile p = [] := by
  cases l with
  | nil => rfl
  | cons x xs => simp [List.takeWhile_cons, h x rfl]

/-- Trimming removes surrounding all-whitespace strings. -/
lemma jsTrim_pad (a s b : String) (ha : ∀ c ∈ a.data, isJsSpace c = true)
    (hb : ∀ c ∈ b.data, isJsSpace c = true) :
    jsTrim (a ++ s ++ b) = jsTrim s := by
  unfold jsTrim
  have hdata : (a ++ s ++ b).data = a.data ++ (s.data ++ b.data) := by
    simp [List.append_assoc]
  rw [hdata, List.dropWhile_append_of_pos ha, List.dropWhile_append]
  by_cases hu : (s.data.dropWhile isJsSpace).isEmpty
  · have hb0 : b.data.dropWhile isJsSpace = [] := by
      have := @List.dropWhile_append_of_pos Char isJsSpace b.data [] hb
      simpa using this
    rw [if_pos hu, hb0]
    rw [List.isEmpty_iff] at hu
    rw [hu]
  · have hbrev : ∀ c ∈ b.data.reverse, isJsSpace c = true := by
      intro c hc
      exact hb c (List.mem_reverse.mp hc)
    rw [if_neg hu, List.reverse_append, List.dropWhile_append_of_pos hbrev]

/-- A string whose first and last characters are not whitespace is fixed by
trimming. -/
lemma jsTrim_eq_self (s : String)
    (h1 : ∀ c, s.data.head? = some c → isJsSpace c = false)
    (h2 : ∀ c, s.data.getLast? = some c → isJsSpace c = false) :
    jsTrim s = s := by
  unfold jsTrim
  rw [dropWhile_of_head_neg _ h1]
  rw [dropWhile_of_head_neg _ (by
    intro c hc
    exact h2 c (by rwa [List.head?_reverse] at hc))]
  rw [List.reverse_reverse]

/-- A string the floor regex accepts is none of the three literal
commands. -/
lemma ne_literal_of_matchFloor {raw : String} {kl : String × String}
    (h : matchFloor raw = some kl) :
    raw ≠ "!strategy" ∧ raw ≠ "!攻略" ∧ raw ≠ "!戦略" := by
  refine ⟨?_, ?_, ?_⟩ <;> rintro rfl
  · have hn : matchFloor "!strategy" = none := by decide
    rw [hn] at h
    exact Option.noConfusion h
  · have hn : matchFloor "!攻略" = none := by decide
    rw [hn] at h
    exact Option.noConfusion h
  · have hn : matchFloor "!戦略" = none := by decide
    rw [hn] at h
    exact Option.noConfusion h

/-- On a regex hit the handler reduces to the table lookup. -/
lemma handleRaw_floor {raw key lang : String} {now : Int}
    (h : matchFloor raw = some (key, lang)) :
    handleRaw raw now =
      (match strategies key lang with
       | some cfg => [floorEmbed lang cfg now]
       | none => []) := by
  obtain ⟨h1, h2, h3⟩ := ne_literal_of_matchFloor h
  unfold handleRaw
  rw [if_neg h1, if_neg h2, if_neg h3, h]

/-- Computation of the regex match on `!` + digits + whitespace + language
code, stated on the underlying character list so that the no-whitespace form
is the instance `w = []`. -/
lemma matchFloor_eq_some (s N L : String) (w : List Char)
    (hs : s.data = '!' :: (N.data ++ (w ++ L.data)))
    (hN : N.data ≠ []) (hNd : ∀ c ∈ N.data, isDig c = true)
    (hw : ∀ c ∈ w, isJsSpace c = true)
    (hL : L = "en" ∨ L = "cn" ∨ L = "jp") :
    matchFloor s = some (N, L) := by
  have hwd : ∀ c ∈ w, isDig c = false := by
    intro c hc
    exact isDig_eq_false_of_isJsSpace (hw c hc)
  have hLhead : ∀ c, L.data.head? = some c → isDig c = false := by
    rcases hL with rfl | rfl | rfl <;> (intro c hc; cases hc; decide)
  have hLheadSp : ∀ c, L.data.head? = some c → isJsSpace c = false := by
    rcases hL with rfl | rfl | rfl <;> (intro c hc; cases hc; decide)
  have hwLhead : ∀ c, (w ++ L.data).head? = some c → isDig c = false := by
    cases w with
    | nil =>
      intro c hc
      exact hLhead c hc
    | cons x xs =>
      intro c hc
      cases hc
      exact hwd x (by simp)
  have htake : (N.data ++ (w ++ L.data)).takeWhile isDig = N.data := by
    rw [List.takeWhile_append_of_pos hNd, takeWhile_of_head_neg _ hwLhead,
      List.append_nil]
  have hdrop : (N.data ++ (w ++ L.data)).dropWhile isDig = w ++ L.data := by
    rw [List.dropWhile_append_of_pos hNd, dropWhile_of_head_neg _ hwLhead]
  have hdropSp : (w ++ L.data).dropWhile isJsSpace = L.data := by
    rw [List.dropWhile_append_of_pos hw, dropWhile_of_head_neg _ hLheadSp]
  have hLlang : lowerLang L.data = some L := by
    rcases hL with rfl | rfl | rfl <;> rfl
  have hne : ¬ (N.data.isEmpty = true) := by
    rw [List.isEmpty_iff]
    exact hN
  have hne2 : ¬ ((w ++ L.data).isEmpty = true) := by
    rw [List.isEmpty_iff, List.append_eq_nil]
    rintro ⟨-, hL0⟩
    rcases hL with rfl | rfl | rfl <;> exact absurd hL0 (by decide)
  unfold matchFloor
  rw [hs]
  dsimp only
  rw [if_pos rfl, htake, hdrop, if_neg hne, if_neg hne2, hdropSp, hLlang]

/-- The handler output is the interpretation of the selected branch. -/
lemma handleRaw_interp (raw : String) (now : Int) :
    handleRaw raw now = interpBranch (selectedBranch raw) now := by
  unfold handleRaw selectedBranch
  split_ifs <;> try rfl
  cases matchFloor raw with
  | none => rfl
  | some kl =>
    cases kl
    rfl

/-! Theorems settling the claims. -/

/-- Claim C1, counterexample: on Saturday 2025-01-04 (day number 20092 since
the epoch, weekday 6) the computed title prefix is `1/3`, the previous
Friday, while the upcoming Friday is 2025-01-10, formatted `1/10`. -/
theorem C1_counterexample :
    jsGetDay 20092 = 6 ∧
    (handleMessage false "!57en" 20092).map Embed.title =
      ["1/3" ++ " " ++ "Abyss Strategy for 57"] ∧
    upcomingFridaySpec 20092 = 20098 ∧
    monthDayStr 20098 = "1/10" ∧
    fridayStr 20092 = "1/3" ∧
    fridayStr 20092 ≠ monthDayStr (upcomingFridaySpec 20092) := by
  refine ⟨by decide, by decide, by decide, by decide, by decide, by decide⟩

/-- Claim C1, amended: for every inbound non-bot message matching the floor
pattern with a known (floor, language) entry the embed title is prefixed
with the `month/day` format of the day obtained by adding `5 - weekday`
days to the clock; that day always falls on a Friday, and it is the
upcoming Friday for weekdays Sunday through Friday, but the previous day —
the previous Friday — when the clock reads a Saturday. -/
theorem C1_claim (content : String) (d : Int) (key lang : String) (cfg : StratCfg)
    (hm : matchFloor (jsTrim content) = some (key, lang))
    (hc : strategies key lang = some cfg) :
    (handleMessage false content d).map Embed.title =
      [fridayStr d ++ " " ++ cfg.titleSuffix] ∧
    fridayStr d = monthDayStr (d + (5 - jsGetDay d)) ∧
    jsGetDay (d + (5 - jsGetDay d)) = 5 ∧
    0 ≤ jsGetDay d ∧ jsGetDay d ≤ 6 ∧
    (jsGetDay d ≠ 6 →
      d ≤ d + (5 - jsGetDay d) ∧ d + (5 - jsGetDay d) = upcomingFridaySpec d) ∧
    (jsGetDay d = 6 → d + (5 - jsGetDay d) = d - 1) ∧
    jsGetDay (upcomingFridaySpec d) = 5 ∧
    d ≤ upcomingFridaySpec d ∧ upcomingFridaySpec d ≤ d + 6 := by
  have harg : jsSetDate d (jsGetDate d + (5 - jsGetDay d)) = d + (5 - jsGetDay d) := by
    unfold jsSetDate
    ring
  refine ⟨?_, ?_, ?_, ?_, ?_, ?_, ?_, ?_, ?_, ?_⟩
  · show ((handleRaw (jsTrim content) d).map Embed.title) =
      [fridayStr d ++ " " ++ cfg.titleSuffix]
    rw [handleRaw_floor hm, hc]
    rfl
  · show monthDayStr (jsSetDate d (jsGetDate d + (5 - jsGetDay d))) =
      monthDayStr (d + (5 - jsGetDay d))
    rw [harg]
  · unfold jsGetDay
    omega
  · unfold jsGetDay
    omega
  · unfold jsGetDay
    omega
  · unfold jsGetDay upcomingFridaySpec jsGetDay
    omega
  · unfold jsGetDay
    omega
  · unfold upcomingFridaySpec jsGetDay
    omega
  · unfold upcomingFridaySpec jsGetDay
    omega
  · unfold upcomingFridaySpec jsGetDay
    omega

/-- Claim C1, witness: the amended theorem evaluated at `!57en` on
Wednesday 2025-01-01 (day 20089) and at `!58cn` on Friday 2025-01-03 (day
20091); on both the computed prefix is `1/3`, the upcoming Friday. -/
theorem C1_witness :
    jsGetDay 20089 = 3 ∧ fridayStr 20089 = "1/3" ∧
    (handleMessage false "!57en" 20089).map Embed.title =
      ["1/3" ++ " " ++ "Abyss Strategy for 57"] ∧
    (20089 : Int) + (5 - jsGetDay 20089) = upcomingFridaySpec 20089 ∧
    jsGetDay 20091 = 5 ∧ fridayStr 20091 = "1/3" ∧
    (handleMessage false "!58cn" 20091).map Embed.title =
      ["1/3" ++ " " ++ "58層深淵攻略"] ∧
    (20091 : Int) + (5 - jsGetDay 20091) = upcomingFridaySpec 20091 := by
  have h89 := C1_claim "!57en" 20089 "57" "en" strat57en (by decide) (by decide)
  have h91 := C1_claim "!58cn" 20091 "58" "cn" strat58cn (by decide) (by decide)
  refine ⟨by decide, by decide, ?_, ?_, by decide, by decide, ?_, ?_⟩
  · rw [h89.1]
    decide
  · exact (h89.2.2.2.2.2.1 (by decide)).2
  · rw [h91.1]
    decide
  · exact (h91.2.2.2.2.2.1 (by decide)).2

/-- Claim C2: for input `!57en` exactly one embed is sent; its title ends
with `Abyss Strategy for 57` and its description contains the goal value 57
and the permalink stored for floor 57, language `en`. -/
theorem C2_claim (d : Int) :
    (handleMessage false "!57en" d).length = 1 ∧
    handleMessage false "!57en" d = [floorEmbed "en" strat57en d] ∧
    strEndsWith "Abyss Strategy for 57" (floorEmbed "en" strat57en d).title = true ∧
    substr "57" (floorEmbed "en" strat57en d).description = true ∧
    substr strat57en.link (floorEmbed "en" strat57en d).description = true ∧
    strat57en.link =
      "https://discord.com/channels/1082595320074092574/1363695806841880656/1381677003136176293" := by
  refine ⟨rfl, rfl, ?_, rfl, rfl, rfl⟩
  rw [strEndsWith, List.isSuffixOf_iff_suffix]
  show ("Abyss Strategy for 57" : String).data <:+
    ((fridayStr d ++ " ") ++ "Abyss Strategy for 57").data
  rw [String.data_append]
  exact List.suffix_append _ _

/-- Claim C3: a non-bot message matching the floor pattern whose captured
(floor, language) pair is absent from the static table produces no outbound
message. -/
theorem C3_claim (content : String) (d : Int) (key lang : String)
    (h1 : matchFloor (jsTrim content) = some (key, lang))
    (h2 : strategies key lang = none) :
    handleMessage false content d = [] := by
  show handleRaw (jsTrim content) d = []
  rw [handleRaw_floor h1, h2]

/-- Claim C3, witness: the unknown floor `!99` is silently ignored. -/
theorem C3_witness : handleMessage false "!99" 0 = [] :=
  C3_claim "!99" 0 "99" "en" (by decide) (by decide)

/-- Claim C4: a bot-authored message never produces a reply, whatever its
content and whatever the clock reads. -/
theorem C4_claim (content : String) (d : Int) :
    handleMessage true content d = [] := rfl

/-- Claim C5: for input `!58cn` the sent embed's color is the CN constant
`0xFF4500`, distinct from the EN (`0x1ABC9C`) and JP (`0xFFD700`)
constants, and its description is the CN template instantiated with the
floor-58 goal and permalink, not the EN template. -/
theorem C5_claim (d : Int) :
    handleMessage false "!58cn" d = [floorEmbed "cn" strat58cn d] ∧
    (floorEmbed "cn" strat58cn d).color = 0xFF4500 ∧
    floorColor "cn" = 0xFF4500 ∧ floorColor "en" = 0x1ABC9C ∧ floorColor "jp" = 0xFFD700 ∧
    (0xFF4500 : Nat) ≠ 0x1ABC9C ∧ (0xFF4500 : Nat) ≠ 0xFFD700 ∧
    (floorEmbed "cn" strat58cn d).description =
      "**目標：**58層\n\n**攻略：**[點這裡](https://discord.com/channels/1082595320074092574/1363734401791430868/1381483774038114466)" ∧
    (floorEmbed "cn" strat58cn d).description = floorDescription "cn" strat58cn ∧
    floorDescription "cn" strat58cn ≠ floorDescription "en" strat58cn := by
  refine ⟨rfl, rfl, rfl, rfl, rfl, by decide, by decide, rfl, rfl, by decide⟩

/-- Claim C6: each literal command `!strategy`, `!攻略`, `!戦略` produces
exactly one embed, a fixed constant independent of the clock, with the
stated title and the shared color `0x1ABC9C`. -/
theorem C6_claim (d : Int) :
    handleMessage false "!strategy" d = [strategyEmbedEn] ∧
    handleMessage false "!攻略" d = [strategyEmbedCn] ∧
    handleMessage false "!戦略" d = [strategyEmbedJp] ∧
    strategyEmbedEn.title = "Common abyss strategy" ∧ strategyEmbedEn.color = 0x1ABC9C ∧
    strategyEmbedCn.title = "通用深淵攻略" ∧ strategyEmbedCn.color = 0x1ABC9C ∧
    strategyEmbedJp.title = "共通深淵戦略" ∧ strategyEmbedJp.color = 0x1ABC9C := by
  refine ⟨rfl, rfl, rfl, rfl, rfl, rfl, rfl, rfl, rfl⟩

/-- Claim C7: matching is trim-tolerant and suffix-case-insensitive with
`en` as default: wrapping `!strategy` in any leading/trailing JavaScript
whitespace gives the same reply, `!57EN` replies identically to `!57en`,
and for each known floor the suffix-less form replies identically to the
`en` form. -/
theorem C7_claim (a b : String) (d : Int)
    (ha : ∀ c ∈ a.data, isJsSpace c = true)
    (hb : ∀ c ∈ b.data, isJsSpace c = true) :
    handleMessage false (a ++ "!strategy" ++ b) d = handleMessage false "!strategy" d ∧
    handleMessage false "!57EN" d = handleMessage false "!57en" d ∧
    handleMessage false "!57" d = handleMessage false "!57en" d ∧
    handleMessage false "!58" d = handleMessage false "!58en" d := by
  refine ⟨?_, rfl, rfl, rfl⟩
  show handleRaw (jsTrim (a ++ "!strategy" ++ b)) d = handleRaw (jsTrim "!strategy") d
  rw [jsTrim_pad _ _ _ ha hb]

/-- Claim C7, witness: one space on each side of `!strategy`. -/
theorem C7_witness :
    handleMessage false (" " ++ "!strategy" ++ " ") 0 = handleMessage false "!strategy" 0 :=
  (C7_claim " " " " 0 (by decide) (by decide)).1

/-- Claim C8: replies never echo user text: the output is a function of the
selected dispatch branch and the clock alone, and every sent embed is one of
the three static embeds or a table-driven floor embed. -/
theorem C8_claim (c1 c2 : String) (d : Int)
    (h : selectedBranch (jsTrim c1) = selectedBranch (jsTrim c2)) :
    handleMessage false c1 d = handleMessage false c2 d ∧
    ∀ e ∈ handleMessage false c1 d,
      e = strategyEmbedEn ∨ e = strategyEmbedCn ∨ e = strategyEmbedJp ∨
      ∃ lang cfg, e = floorEmbed lang cfg d := by
  constructor
  · show handleRaw (jsTrim c1) d = handleRaw (jsTrim c2) d
    rw [handleRaw_interp, handleRaw_interp, h]
  · intro e he
    have he' : e ∈ interpBranch (selectedBranch (jsTrim c1)) d := by
      have h0 : handleMessage false c1 d = interpBranch (selectedBranch (jsTrim c1)) d :=
        handleRaw_interp (jsTrim c1) d
      rw [h0] at he
      exact he
    rcases hbr : selectedBranch (jsTrim c1) with _ | _ | _ | ⟨key, lang⟩ | _ <;>
      rw [hbr] at he'
    · exact Or.inl (by simpa [interpBranch] using he')
    · exact Or.inr (Or.inl (by simpa [interpBranch] using he'))
    · exact Or.inr (Or.inr (Or.inl (by simpa [interpBranch] using he')))
    · simp only [interpBranch] at he'
      cases hcfg : strategies key lang with
      | none =>
        rw [hcfg] at he'
        simp at he'
      | some cfg =>
        rw [hcfg] at he'
        refine Or.inr (Or.inr (Or.inr ⟨lang, cfg, ?_⟩))
        simpa using he'
    · simp [interpBranch] at he'

/-- Claim C8, witness: a tab-padded `!strategy` and the bare `!strategy`
select the same branch and receive the same reply. -/
theorem C8_witness :
    handleMessage false "\t!strategy" 0 = handleMessage false "!strategy" 0 :=
  (C8_claim "\t!strategy" "!strategy" 0 (by decide)).1

/-- Claim C9: the floor pattern tolerates whitespace between the digits and
the language suffix: for any nonempty digit string `N`, any run `w` of
JavaScript whitespace and any suffix `L` in `en`, `cn`, `jp`, the input
`!` + `N` + `w` + `L` gets exactly the reply of `!` + `N` + `L`. -/
theorem C9_claim (N w L : String) (d : Int)
    (hN : N.data ≠ []) (hNd : ∀ c ∈ N.data, isDig c = true)
    (hw : ∀ c ∈ w.data, isJsSpace c = true)
    (hL : L = "en" ∨ L = "cn" ∨ L = "jp") :
    handleMessage false ("!" ++ N ++ w ++ L) d = handleMessage false ("!" ++ N ++ L) d := by
  have hdata1 : ("!" ++ N ++ w ++ L).data = '!' :: (N.data ++ (w.data ++ L.data)) := by
    simp [List.append_assoc]
  have hdata2 : ("!" ++ N ++ L).data = '!' :: (N.data ++ ([] ++ L.data)) := by
    simp [List.append_assoc]
  have hm1 : matchFloor ("!" ++ N ++ w ++ L) = some (N, L) :=
    matchFloor_eq_some _ N L w.data hdata1 hN hNd hw hL
  have hm2 : matchFloor ("!" ++ N ++ L) = some (N, L) :=
    matchFloor_eq_some _ N L [] hdata2 hN hNd (by simp) hL
  have hLlast : ∀ c, L.data.getLast? = some c → isJsSpace c = false := by
    rcases hL with rfl | rfl | rfl <;> (intro c hc; cases hc; decide)
  have hlast1 : ("!" ++ N ++ w ++ L).data.getLast? = L.data.getLast? := by
    have h : ("!" ++ N ++ w ++ L).data = ("!" ++ N ++ w).data ++ L.data := by simp
    rw [h, List.getLast?_append]
    rcases hL with rfl | rfl | rfl <;> rfl
  have hlast2 : ("!" ++ N ++ L).data.getLast? = L.data.getLast? := by
    have h : ("!" ++ N ++ L).data = ("!" ++ N).data ++ L.data := by simp
    rw [h, List.getLast?_append]
    rcases hL with rfl | rfl | rfl <;> rfl
  have ht1 : jsTrim ("!" ++ N ++ w ++ L) = "!" ++ N ++ w ++ L := by
    apply jsTrim_eq_self
    · intro c hc
      rw [hdata1] at hc
      cases hc
      decide
    · intro c hc
      rw [hlast1] at hc
      exact hLlast c hc
  have ht2 : jsTrim ("!" ++ N ++ L) = "!" ++ N ++ L := by
    apply jsTrim_eq_self
    · intro c hc
      rw [hdata2] at hc
      cases hc
      decide
    · intro c hc
      rw [hlast2] at hc
      exact hLlast c hc
  show handleRaw (jsTrim ("!" ++ N ++ w ++ L)) d = handleRaw (jsTrim ("!" ++ N ++ L)) d
  rw [ht1, ht2, handleRaw_floor hm1, handleRaw_floor hm2]

/-- Claim C9, witness: `!57 en` with one internal space replies exactly as
`!57en`. -/
theorem C9_witness :
    handleMessage false ("!" ++ "57" ++ " " ++ "en") 0 =
      handleMessage false ("!" ++ "57" ++ "en") 0 :=
  C9_claim "57" " " "en" 0 (by decide) (by decide) (by decide) (Or.inl rfl)

/-- Claim C10: at most one outbound send per inbound message: every branch
sends at most one embed, the floor pattern rejects the three literal
commands, and a message matching no branch sends nothing. -/
theorem C10_claim (authorBot : Bool) (content : String) (d : Int) :
    (handleMessage authorBot content d).length ≤ 1 ∧
    matchFloor "!strategy" = none ∧ matchFloor "!攻略" = none ∧ matchFloor "!戦略" = none ∧
    ((jsTrim content ≠ "!strategy" ∧ jsTrim content ≠ "!攻略" ∧ jsTrim content ≠ "!戦略" ∧
      matchFloor (jsTrim content) = none) → handleMessage authorBot content d = []) := by
  refine ⟨?_, by decide, by decide, by decide, ?_⟩
  · cases authorBot with
    | true =>
      show (List.length ([] : List Embed)) ≤ 1
      decide
    | false =>
      show (handleRaw (jsTrim content) d).length ≤ 1
      unfold handleRaw
      split_ifs <;> try simp
      cases matchFloor (jsTrim content) with
      | none => simp
      | some kl =>
        obtain ⟨key, lang⟩ := kl
        rcases hcfg : strategies key lang with - | cfg <;> simp [hcfg]
  · rintro ⟨h1, h2, h3, h4⟩
    cases authorBot with
    | true => rfl
    | false =>
      show handleRaw (jsTrim content) d = []
      unfold handleRaw
      rw [if_neg h1, if_neg h2, if_neg h3, h4]

/-- Claim C10, witness: a message matching no branch gets no reply. -/
theorem C10_witness : handleMessage false "hello" 0 = [] :=
  (C10_claim false "hello" 0).2.2.2.2 ⟨by decide, by decide, by decide, by decide⟩
